import Mathlib

/-!
Verification of the Bitnomon core (main.py): the series merge engine
(`MainWindow.plotNetTotals`), the request-chain scheduler
(`update` / `startChain` / `nextChainedRequest` / `netError` and the
`chainRequest` handler wrapper), and the block-arrival window logic in
`updateInfo`.  Sample values are embedded over `ℚ`; timestamps and ages
over `ℤ` (the age transform is `now - t` on integer clock readings);
collaborator state (Qt widgets, the RPC transport) is abstracted to the
fields the core reads and writes.
-/

namespace Bitnomon

/-- Modelled from the spec: `rrdmodel.RRA` is not under `src/`.  A
fixed-capacity circular store of optional samples, represented by its
logical view: index 0 is the oldest retained slot (the scan direction
used by the merge engine in spec section 4.2, matching the plot-domain
alignment in `main.py`), the last index is the most recent sample. -/
structure RRA where
  data : List (Option ℚ)
deriving DecidableEq

/-- Modelled from the spec: `new(capacity)` gives a buffer with all
slots absent. -/
def RRA.new (n : ℕ) : RRA := ⟨List.replicate n none⟩

/-- Modelled from the spec: `update(v)` appends, overwriting the oldest
slot (in the logical view: drop the oldest, append the newest). -/
def RRA.update (r : RRA) (v : ℚ) : RRA := ⟨r.data.tail ++ [some v]⟩

/-- Modelled from the spec: `differences(start)` is the sequence of
consecutive differences (newer sample minus older sample, so that a
monotone counter yields non-negative deltas), absent when either slot
is absent, of length `capacity - 1 - start`, aligned with the age
domain used by the merge. -/
def RRA.differences (r : RRA) (start : ℕ) : List (Option ℚ) :=
  (List.zipWith
    (fun a b =>
      match a, b with
      | some x, some y => some (y - x)
      | _, _ => none)
    r.data r.data.tail).drop start

/-- Modelled from the spec: `age(now, t) = now - t` (`age.ageOfTime` is
not under `src/`). -/
def ageOfTime (now t : ℤ) : ℤ := now - t

/-- One poll interval, in seconds (`poll_interval = 1` in
`MainWindow._setupPlots`). -/
def pollInterval : ℤ := 1

/-- `traf_samples = int(600./poll_interval)` in `_setupPlots`. -/
def trafSamples : ℕ := 600

/-- `traf_intervals = traf_samples - 1`. -/
def trafIntervals : ℕ := trafSamples - 1

/-- `trafPlotDomain` from `_setupPlots`: ages
`poll_interval * ageOfTime(traf_intervals, s)` for `s = 1 .. traf_intervals`,
i.e. descending ages `598, 597, …, 0`. -/
def trafPlotDomain : List ℤ :=
  (List.range trafIntervals).map
    (fun s : ℕ => pollInterval * ageOfTime (trafIntervals : ℤ) ((s : ℤ) + 1))

/-- `removeNone` from `plotNetTotals`: absent archive values are plotted
as 0 within the merge. -/
def removeNone : Option ℚ → ℚ
  | none => 0
  | some v => v

/-- An archive bucket as consumed by the merge: a timestamp and the
averaged (recv, sent) values, either possibly absent. -/
abbrev Bucket := ℤ × Option ℚ × Option ℚ

/-- The input state read by one invocation of `plotNetTotals`: the plot
domain, the two full-resolution ring buffers, the archive bucket
sequence in `fetch_all` iteration order, and the captured time. -/
structure MergeInput where
  domain : List ℤ
  trafRecv : RRA
  trafSent : RRA
  rrd : List Bucket
  now : ℤ

/-- The boundary scan loop of `plotNetTotals`: walk the plot domain from
index `i`, returning the first index whose ring-buffer slot is filled
together with its age; if the loop exhausts the domain without a break,
the Python loop variable is left at the final index and the age at its
initial value 0. -/
def findOldestFullResAux (buf : List (Option ℚ)) (i : ℕ) : List ℤ → ℕ × ℤ
  | [] => (i - 1, 0)
  | a :: rest =>
    match buf[i]? with
    | some (some _) => (i, a)
    | _ => findOldestFullResAux buf (i + 1) rest

/-- The boundary scan of `plotNetTotals`, started at index 0. -/
def findOldestFullRes (domain : List ℤ) (buf : List (Option ℚ)) : ℕ × ℤ :=
  findOldestFullResAux buf 0 domain

/-- `(oldestFullResIndex, oldestFullResAge)` for a merge invocation. -/
def mergeBoundary (inp : MergeInput) : ℕ × ℤ :=
  findOldestFullRes inp.domain inp.trafRecv.data

/-- The archive drain loop of `plotNetTotals`: convert each bucket's
timestamp to an age, keep `(age, removeNone recv, removeNone sent)`
while `age > boundary`, and stop at the first bucket at or before the
boundary.  The second component is the bucket (converted to an age)
held in the Python loop variables when the loop ends: the breaking
bucket on a break, otherwise the final kept bucket; `none` only when
the archive is empty. -/
def drainRRD (now bnd : ℤ) :
    List Bucket → List (ℤ × ℚ × ℚ) × Option (ℤ × Option ℚ × Option ℚ)
  | [] => ([], none)
  | (t, rv, sv) :: rest =>
    let age := ageOfTime now t
    if bnd < age then
      let r := drainRRD now bnd rest
      ((age, removeNone rv, removeNone sv) :: r.1, some (r.2.getD (age, rv, sv)))
    else
      ([], some (age, rv, sv))

/-- The drained archive contribution of a merge invocation. -/
def mergeDrain (inp : MergeInput) :
    List (ℤ × ℚ × ℚ) × Option (ℤ × Option ℚ × Option ℚ) :=
  drainRRD inp.now (mergeBoundary inp).2 inp.rrd

/-- The blend fraction `(oldestFullResAge - age) / (prevAge - age)` of
`plotNetTotals` (float division in the source, rational division
here). -/
def blendOf (bnd lastAge prevAge : ℤ) : ℚ :=
  ((bnd - lastAge : ℤ) : ℚ) / ((prevAge - lastAge : ℤ) : ℚ)

/-- The `interpolate` lambda of `plotNetTotals`:
`interpolate(a, b) = a*(1.0-blend) + b*blend`. -/
def interpolateQ (blend a b : ℚ) : ℚ := a * (1 - blend) + b * blend

/-- The boundary interpolation of `plotNetTotals`: when at least one
bucket was kept (`prevAge = ages[-1]`) and the age held in the loop
variable differs from it (i.e. the drain stopped at a further bucket),
append at `oldestFullResAge` the blend of the stopped-at bucket's value
and the last kept value with
`blend = (oldestFullResAge - age) / (prevAge - age)`, and advance the
full-resolution start index by one. -/
def mergeInterp (inp : MergeInput) : List (ℤ × ℚ × ℚ) × ℕ :=
  match (mergeDrain inp).1.getLast?, (mergeDrain inp).2 with
  | some prev, some lastB =>
    if lastB.1 ≠ prev.1 then
      let bnd := (mergeBoundary inp).2
      let blend : ℚ := blendOf bnd lastB.1 prev.1
      ((mergeDrain inp).1 ++
        [(bnd,
          interpolateQ blend (removeNone lastB.2.1) prev.2.1,
          interpolateQ blend (removeNone lastB.2.2) prev.2.2)],
       (mergeBoundary inp).1 + 1)
    else ((mergeDrain inp).1, (mergeBoundary inp).1)
  | _, _ => ((mergeDrain inp).1, (mergeBoundary inp).1)

/-- The series emitted by one invocation of `plotNetTotals`: ages, recv
values and sent values (archive part first, then the clipped
full-resolution differences; full-resolution entries may be absent). -/
def plotNetTotals (inp : MergeInput) :
    List ℤ × List (Option ℚ) × List (Option ℚ) :=
  ((mergeInterp inp).1.map (fun x => x.1) ++ inp.domain.drop (mergeInterp inp).2,
   (mergeInterp inp).1.map (fun x => some x.2.1) ++
     (inp.trafRecv.differences 0).drop (mergeInterp inp).2,
   (mergeInterp inp).1.map (fun x => some x.2.2) ++
     (inp.trafSent.differences 0).drop (mergeInterp inp).2)

/-! ## Request-chain scheduler (`MainWindow` control flow) -/

/-- The four RPC methods registered by the `@chainRequest` decorators in
`main.py`, in registration order. -/
inductive RpcMethod
  | getinfo
  | getmininginfo
  | getnettotals
  | getrawmempool
deriving DecidableEq

/-- `commandChain`: the ordered chain built at import time by the
`chainRequest` decorators. -/
def commandChain : List RpcMethod :=
  [RpcMethod.getinfo, RpcMethod.getmininginfo,
   RpcMethod.getnettotals, RpcMethod.getrawmempool]

/-- The `statusNetwork` label contents the core writes: untouched since
startup, the end-of-chain RTT stats, or a network-error message. -/
inductive NetStatus
  | startup
  | rttStats
  | networkError
deriving DecidableEq

/-- The `MainWindow` state the core reads and writes.  `issuedCalls` is
the log of steps for which `proxy._call` was invoked (appended in issue
order); `mergeLog` records, per `plotNetTotals` invocation, the value of
`busy` at the moment the merge ran; the UI labels and plot widgets are
sinks and are not modelled beyond `statusNetwork` / `statusMissed`.
`trafRRD` is modelled from the spec (archive collaborator: `append` and
`fetch_all`, the latter iterated in stored order). -/
structure AppState where
  busy : Bool
  missedSamples : ℕ
  chainIndex : ℕ
  replies : List ℕ
  issuedCalls : List ℕ
  statusNetwork : NetStatus
  statusMissed : ℕ
  mergeLog : List Bool
  lastBlockCount : Option ℤ
  blockRecvTimes : RRA
  trafRecv : RRA
  trafSent : RRA
  trafRRD : List Bucket
deriving DecidableEq

/-- The state after `MainWindow.__init__` / `_setupPlots` (the source
leaves `chainIndex` and `replies` unset until the first `startChain`;
they are modelled as `0` / `[]`). -/
def initState : AppState :=
  { busy := false
    missedSamples := 0
    chainIndex := 0
    replies := []
    issuedCalls := []
    statusNetwork := NetStatus.startup
    statusMissed := 0
    mergeLog := []
    lastBlockCount := none
    blockRecvTimes := RRA.new 24
    trafRecv := RRA.new trafSamples
    trafSent := RRA.new trafSamples
    trafRRD := [] }

/-- `updateStatusMissedSamples`: copy the counter into its status
label. -/
def updateStatusMissedSamples (s : AppState) : AppState :=
  { s with statusMissed := s.missedSamples }

/-- The state read by a `plotNetTotals` invocation at time `now`. -/
def mergeInputOf (now : ℤ) (s : AppState) : MergeInput :=
  { domain := trafPlotDomain
    trafRecv := s.trafRecv
    trafSent := s.trafSent
    rrd := s.trafRRD
    now := now }

/-- The state effect of one `plotNetTotals` invocation: the core state
is only read; the instrumentation log records the invocation together
with the `busy` flag it ran under. -/
def plotNetTotalsEffect (s : AppState) : AppState :=
  { s with mergeLog := s.mergeLog ++ [s.busy] }

/-- One `plotNetTotals` invocation at time `now`: the (unchanged but
logged) state and the emitted series. -/
def plotNetTotalsApp (now : ℤ) (s : AppState) :
    AppState × (List ℤ × List (Option ℚ) × List (Option ℚ)) :=
  (plotNetTotalsEffect s, plotNetTotals (mergeInputOf now s))

/-- `MainWindow.nextChainedRequest`: at the end of the chain unlock and
publish the RTT stats; otherwise issue the call for the current step,
keep its reply alive, and advance the step index. -/
def nextChainedRequest (s : AppState) : AppState :=
  if commandChain.length ≤ s.chainIndex then
    { s with busy := false, statusNetwork := NetStatus.rttStats }
  else
    { s with issuedCalls := s.issuedCalls ++ [s.chainIndex]
             replies := s.replies ++ [s.chainIndex]
             chainIndex := s.chainIndex + 1 }

/-- `MainWindow.startChain`: reset the per-cycle state, lock, and issue
step 0. -/
def startChain (s : AppState) : AppState :=
  nextChainedRequest { s with chainIndex := 0, replies := [], busy := true }

/-- `MainWindow.update` (the timer tick): while busy count a missed
sample; otherwise start a new chain. -/
def update (s : AppState) : AppState :=
  if s.busy then
    updateStatusMissedSamples { s with missedSamples := s.missedSamples + 1 }
  else startChain s

/-- `MainWindow.netError`: unlock, publish the error message, and invoke
`plotNetTotals` (its state effect; the series it emits is
`plotNetTotals` of the state at that point). -/
def netError (s : AppState) : AppState :=
  plotNetTotalsEffect { s with busy := false, statusNetwork := NetStatus.networkError }

/-- `MainWindow.updateInfo` (handler of `getinfo`): record the baseline
block count on first observation; on a strict increase append `now` to
the block-arrival window and update the last-seen count; otherwise do
nothing (the connection/block labels are sinks). -/
def updateInfo (_connections blocks : ℤ) (now : ℚ) (s : AppState) : AppState :=
  match s.lastBlockCount with
  | none => { s with lastBlockCount := some blocks }
  | some lastSeen =>
    if lastSeen < blocks then
      { s with lastBlockCount := some blocks
               blockRecvTimes := s.blockRecvTimes.update now }
    else s

/-- `MainWindow.updateMiningInfo` (handler of `getmininginfo`): writes
UI labels only. -/
def updateMiningInfo (s : AppState) : AppState := s

/-- `MainWindow.updateNetTotals` (handler of `getnettotals`): update the
in-memory ring buffers and append the sample to the long-term archive
(the speed labels are sinks). -/
def updateNetTotals (recvT sentT : ℚ) (sampleTime : ℤ) (s : AppState) : AppState :=
  { s with trafRecv := s.trafRecv.update recvT
           trafSent := s.trafSent.update sentT
           trafRRD := s.trafRRD ++ [(sampleTime, some recvT, some sentT)] }

/-- `MainWindow.updateMemPool` (handler of `getrawmempool`): invokes
`plotNetTotals`, then redraws the mempool scatter plot (a sink). -/
def updateMemPool (s : AppState) : AppState := plotNetTotalsEffect s

/-- A successfully decoded reply, dispatched to its step's handler. -/
inductive Reply
  | info (connections blocks : ℤ) (now : ℚ)
  | mininginfo
  | nettotals (recvT sentT : ℚ) (sampleTime : ℤ)
  | rawmempool
deriving DecidableEq

/-- Dispatch of a reply to the registered response handler. -/
def runHandler : Reply → AppState → AppState
  | Reply.info c b now, s => updateInfo c b now s
  | Reply.mininginfo, s => updateMiningInfo s
  | Reply.nettotals r t tm, s => updateNetTotals r t tm s
  | Reply.rawmempool, s => updateMemPool s

/-- The `handlerWrapper` closure produced by the `chainRequest`
decorator: run the response handler (`body`; `raised` records whether it
ended by raising), then — the bare `except` clause only prints the
traceback, so on both paths — fall through to `nextChainedRequest`. -/
def handlerWrapper (body : AppState → AppState) (_raised : Bool) (s : AppState) : AppState :=
  nextChainedRequest (body s)

/-- The external stimuli driving the scheduler: a timer tick, a reply
delivered successfully to step handler code (which may raise), or a
transport error (each issued call resolves exactly once as one of the
last two). -/
inductive Event
  | tick
  | finished (r : Reply) (raised : Bool)
  | error
deriving DecidableEq

/-- The single-threaded event dispatch: each stimulus runs the
corresponding slot to completion. -/
def applyEvent : Event → AppState → AppState
  | Event.tick, s => update s
  | Event.finished r raised, s => handlerWrapper (runHandler r) raised s
  | Event.error, s => netError s

/-- A whole event trace, applied in order. -/
def runEvents (s : AppState) (es : List Event) : AppState :=
  es.foldl (fun t e => applyEvent e t) s

/-! ## Concrete instances used by counterexamples and witnesses -/

/-- A merge input realizing the scenario of claim C1: one archive bucket
at age 650 with value 100, full-resolution window whose oldest filled
slot sits at age 590 (domain index 8) with the full-resolution value at
the boundary equal to 120. -/
def c1Input : MergeInput :=
  { domain := trafPlotDomain
    trafRecv := ⟨List.replicate 8 none ++ [some 0] ++ List.replicate 591 (some 120)⟩
    trafSent := ⟨List.replicate 8 none ++ [some 0] ++ List.replicate 591 (some 120)⟩
    rrd := [(350, some 100, some 100)]
    now := 1000 }

/-- A merge input where the archive drain actually stops at a further
bucket: kept bucket at age 650 value 100, stopped-at bucket at age 500
value 120, boundary at age 590. -/
def c1WitnessInput : MergeInput :=
  { domain := trafPlotDomain
    trafRecv := ⟨List.replicate 8 none ++ [some 0] ++ List.replicate 591 (some 120)⟩
    trafSent := ⟨List.replicate 8 none ++ [some 0] ++ List.replicate 591 (some 120)⟩
    rrd := [(350, some 100, some 100), (500, some 120, some 120)]
    now := 1000 }

/-- A cold-start merge input: both ring buffers entirely empty, one
archive bucket at age 100 with value 7. -/
def c6Input : MergeInput :=
  { domain := trafPlotDomain
    trafRecv := RRA.new trafSamples
    trafSent := RRA.new trafSamples
    rrd := [(900, some 7, some 7)]
    now := 1000 }

/-- A merge input with one kept archive bucket and a non-empty
full-resolution window (same data as `c1Input`), used to exhibit the
order of the appended full-resolution points. -/
def c7Input : MergeInput :=
  { domain := trafPlotDomain
    trafRecv := ⟨List.replicate 8 none ++ [some 0] ++ List.replicate 591 (some 120)⟩
    trafSent := ⟨List.replicate 8 none ++ [some 0] ++ List.replicate 591 (some 120)⟩
    rrd := [(350, some 100, some 100)]
    now := 1000 }

/-- A merge input over the program's plot domain with empty buffers and
archive. -/
def c7WitnessInput : MergeInput :=
  { domain := trafPlotDomain
    trafRecv := RRA.new trafSamples
    trafSent := RRA.new trafSamples
    rrd := []
    now := 0 }

/-- The block counts and observation times of the C5 scenario:
`[100, 100, 101, 101, 99, 102]` at times `t0 .. t5 = 0 .. 5`. -/
def c5Feed : List (ℤ × ℚ) :=
  [(100, 0), (100, 1), (101, 2), (101, 3), (99, 4), (102, 5)]

/-- The state after feeding the C5 scenario through `updateInfo` from
the initial state. -/
def c5Final : AppState :=
  c5Feed.foldl (fun s p => updateInfo 8 p.1 p.2 s) initState

/-! ## Helper lemmas -/

/-- Draining with a boundary below every bucket's age keeps every bucket
and leaves the final bucket in the loop variables. -/
lemma drainRRD_all_kept (now bnd : ℤ) (l : List Bucket)
    (h : ∀ b ∈ l, bnd < ageOfTime now b.1) :
    drainRRD now bnd l =
      (l.map (fun b => (ageOfTime now b.1, removeNone b.2.1, removeNone b.2.2)),
       l.getLast?.map (fun b => (ageOfTime now b.1, b.2.1, b.2.2))) := by
  induction l with
  | nil => rfl
  | cons b rest ih =>
    obtain ⟨t, rv, sv⟩ := b
    have hb : bnd < ageOfTime now t := h (t, rv, sv) (by simp)
    have hr := ih (fun x hx => h x (by simp [hx]))
    have hstep : drainRRD now bnd ((t, rv, sv) :: rest) =
        ((ageOfTime now t, removeNone rv, removeNone sv) :: (drainRRD now bnd rest).1,
         some ((drainRRD now bnd rest).2.getD (ageOfTime now t, rv, sv))) := by
      rw [drainRRD, if_pos hb]
    rw [hstep, hr]
    cases rest with
    | nil => simp
    | cons y ys =>
      cases hz : (y :: ys).getLast? with
      | none => simp at hz
      | some z => simp [List.getLast?_cons_cons, hz]

/-- The boundary scan over a buffer of absent slots exhausts the domain,
leaving the index at the final domain position and the age at 0. -/
lemma findAux_all_none (n : ℕ) (i : ℕ) (dom : List ℤ) :
    findOldestFullResAux (List.replicate n none) i dom = (i + dom.length - 1, 0) := by
  induction dom generalizing i with
  | nil => simp [findOldestFullResAux]
  | cons a rest ih =>
    have h : (List.replicate n (none : Option ℚ))[i]? = none ∨
        (List.replicate n (none : Option ℚ))[i]? = some none := by
      rcases Nat.lt_or_ge i n with h | h
      · right
        simp [List.getElem?_replicate, h]
      · left
        simp [List.getElem?_eq_none, h]
    rcases h with h | h <;>
      · simp only [findOldestFullResAux, h, ih, List.length_cons]
        refine Prod.ext ?_ rfl
        simp

set_option maxRecDepth 10000 in
/-- The boundary scan on a cold-start buffer. -/
lemma cold_boundary :
    findOldestFullRes trafPlotDomain (RRA.new trafSamples).data = (598, 0) := by
  have h : (RRA.new trafSamples).data = List.replicate 600 none := rfl
  have hlen : trafPlotDomain.length = 599 := by decide
  rw [findOldestFullRes, h, findAux_all_none, hlen]

set_option maxRecDepth 1000000 in
set_option maxHeartbeats 2000000 in
/-- The final entry of the plot domain. -/
lemma cold_domain_drop : trafPlotDomain.drop 598 = [0] := by decide

set_option maxRecDepth 1000000 in
set_option maxHeartbeats 2000000 in
/-- The final entry of the difference sequence of an empty buffer. -/
lemma cold_diffs_drop : ((RRA.new trafSamples).differences 0).drop 598 = [none] := by
  decide

set_option maxRecDepth 100000 in
/-- The boundary scan of the cold-start instance. -/
lemma c6_boundary : mergeBoundary c6Input = (598, 0) := by
  have h1 : c6Input.domain = trafPlotDomain := rfl
  have h2 : c6Input.trafRecv = RRA.new trafSamples := rfl
  rw [mergeBoundary, findOldestFullRes]
  rw [h1, h2]
  exact cold_boundary

set_option maxRecDepth 100000 in
/-- The archive drain of the cold-start instance. -/
lemma c6_drain : mergeDrain c6Input = ([(100, 7, 7)], some (100, some 7, some 7)) := by
  unfold mergeDrain
  rw [c6_boundary]
  decide

set_option maxRecDepth 100000 in
/-- On a cold start with every archive bucket strictly in the past, the
merge emits the drained buckets, no interpolated point, and one trailing
full-resolution point at age 0 with absent value. -/
lemma cold_start_merge (rrd : List Bucket) (now : ℤ)
    (h : ∀ b ∈ rrd, 0 < ageOfTime now b.1) :
    plotNetTotals
        { domain := trafPlotDomain, trafRecv := RRA.new trafSamples,
          trafSent := RRA.new trafSamples, rrd := rrd, now := now } =
      ((drainRRD now 0 rrd).1.map (fun x => x.1) ++ [0],
       (drainRRD now 0 rrd).1.map (fun x => some x.2.1) ++ [none],
       (drainRRD now 0 rrd).1.map (fun x => some x.2.2) ++ [none]) := by
  have hb : mergeBoundary
      { domain := trafPlotDomain, trafRecv := RRA.new trafSamples,
        trafSent := RRA.new trafSamples, rrd := rrd, now := now } = (598, 0) := by
    rw [mergeBoundary]
    exact cold_boundary
  have hd := drainRRD_all_kept now 0 rrd h
  have hmd : mergeDrain
      { domain := trafPlotDomain, trafRecv := RRA.new trafSamples,
        trafSent := RRA.new trafSamples, rrd := rrd, now := now } = drainRRD now 0 rrd := by
    rw [mergeDrain, hb]
  have hI : mergeInterp
      { domain := trafPlotDomain, trafRecv := RRA.new trafSamples,
        trafSent := RRA.new trafSamples, rrd := rrd, now := now }
      = ((drainRRD now 0 rrd).1, 598) := by
    rw [mergeInterp, hmd, hb, hd]
    rw [List.getLast?_map]
    cases hz : rrd.getLast? with
    | none => simp
    | some z => simp
  rw [plotNetTotals, hI]
  dsimp only
  rw [cold_domain_drop, cold_diffs_drop]

/-- Mapping a strictly decreasing function over `range` yields a
strictly descending list. -/
lemma pairwise_map_range_desc (n : ℕ) (f : ℕ → ℤ)
    (hf : ∀ a b : ℕ, a < b → f b < f a) :
    List.Pairwise (fun a b : ℤ => b < a) ((List.range n).map f) := by
  refine List.pairwise_map.mpr ?_
  exact (List.pairwise_lt_range n).imp (fun hab => hf _ _ hab)

set_option maxRecDepth 100000 in
/-- The plot domain is strictly descending in age. -/
lemma trafPlotDomain_pairwise :
    List.Pairwise (fun a b : ℤ => b < a) trafPlotDomain := by
  rw [trafPlotDomain]
  refine pairwise_map_range_desc _ _ ?_
  intro a b hab
  simp only [pollInterval, ageOfTime, one_mul]
  omega

/-- `updateInfo` never touches the missed-sample counter. -/
lemma updateInfo_missedSamples (c blocks : ℤ) (now : ℚ) (s : AppState) :
    (updateInfo c blocks now s).missedSamples = s.missedSamples := by
  unfold updateInfo
  cases h : s.lastBlockCount <;> simp [h]
  split <;> rfl

/-- No registered response handler touches the missed-sample counter. -/
lemma runHandler_missedSamples (r : Reply) (s : AppState) :
    (runHandler r s).missedSamples = s.missedSamples := by
  cases r <;>
    simp [runHandler, updateInfo_missedSamples, updateMiningInfo,
      updateNetTotals, updateMemPool, plotNetTotalsEffect]

/-- Advancing the chain never touches the missed-sample counter. -/
lemma nextChainedRequest_missedSamples (s : AppState) :
    (nextChainedRequest s).missedSamples = s.missedSamples := by
  unfold nextChainedRequest
  split <;> rfl

/-! ## Claim C1 -/

set_option maxRecDepth 100000 in
/-- C1 counterexample: at the claim's own numbers — one archive bucket
at age 650 with value 100, oldest filled full-resolution slot at age 590
(so `boundaryAge = 590`) with full-resolution value 120 — the archive
contributes a bucket, yet the emitted series has no point at age 600 and
no interpolated point at all: it is exactly the kept bucket followed by
the clipped plot domain. -/
theorem c1_boundary_claim_false :
    (mergeBoundary c1Input).2 = 590 ∧
    (mergeDrain c1Input).1 = [(650, 100, 100)] ∧
    (600 : ℤ) ∉ (plotNetTotals c1Input).1 ∧
    (plotNetTotals c1Input).1 = 650 :: trafPlotDomain.drop 8 :=
  ⟨by decide, by decide, by decide, by decide⟩

/-- C1 amended: an interpolated point is inserted only when the archive
drain stopped at a further bucket whose age differs from the last kept
bucket's age; the point sits at `boundaryAge` and blends the stopped-at
bucket's value with the last *kept archive* value (not the
full-resolution value), with blend
`(boundaryAge - age_stopped) / (age_lastKept - age_stopped)`, and the
full-resolution start index advances by one. -/
theorem c1_boundary_interpolation_amended (inp : MergeInput)
    (prev : ℤ × ℚ × ℚ) (lastB : ℤ × Option ℚ × Option ℚ)
    (hprev : (mergeDrain inp).1.getLast? = some prev)
    (hlast : (mergeDrain inp).2 = some lastB)
    (hne : lastB.1 ≠ prev.1) :
    plotNetTotals inp =
      ((mergeDrain inp).1.map (fun x => x.1) ++ [(mergeBoundary inp).2] ++
         inp.domain.drop ((mergeBoundary inp).1 + 1),
       (mergeDrain inp).1.map (fun x => some x.2.1) ++
         [some (interpolateQ (blendOf (mergeBoundary inp).2 lastB.1 prev.1)
            (removeNone lastB.2.1) prev.2.1)] ++
         (inp.trafRecv.differences 0).drop ((mergeBoundary inp).1 + 1),
       (mergeDrain inp).1.map (fun x => some x.2.2) ++
         [some (interpolateQ (blendOf (mergeBoundary inp).2 lastB.1 prev.1)
            (removeNone lastB.2.2) prev.2.2)] ++
         (inp.trafSent.differences 0).drop ((mergeBoundary inp).1 + 1)) := by
  have hI : mergeInterp inp =
      ((mergeDrain inp).1 ++
        [((mergeBoundary inp).2,
          interpolateQ (blendOf (mergeBoundary inp).2 lastB.1 prev.1)
            (removeNone lastB.2.1) prev.2.1,
          interpolateQ (blendOf (mergeBoundary inp).2 lastB.1 prev.1)
            (removeNone lastB.2.2) prev.2.2)],
       (mergeBoundary inp).1 + 1) := by
    unfold mergeInterp
    rw [hprev, hlast]
    simp [hne]
  simp [plotNetTotals, hI, List.append_assoc]

set_option maxRecDepth 100000 in
/-- C1 amended, witnessed at a drain that stops: kept bucket at age 650
value 100, stopped-at bucket at age 500 value 120, boundary age 590. -/
theorem c1_boundary_interpolation_amended_witness :
    (mergeDrain c1WitnessInput).1.getLast? = some (650, 100, 100) ∧
    (mergeDrain c1WitnessInput).2 = some (500, some 120, some 120) ∧
    (((500 : ℤ), (some (120:ℚ), some (120:ℚ))).1 ≠ (((650:ℤ), ((100:ℚ), (100:ℚ)))).1) ∧
    plotNetTotals c1WitnessInput =
      ((mergeDrain c1WitnessInput).1.map (fun x => x.1) ++ [(mergeBoundary c1WitnessInput).2] ++
         c1WitnessInput.domain.drop ((mergeBoundary c1WitnessInput).1 + 1),
       (mergeDrain c1WitnessInput).1.map (fun x => some x.2.1) ++
         [some (interpolateQ (blendOf (mergeBoundary c1WitnessInput).2
              ((500 : ℤ), (some (120:ℚ), some (120:ℚ))).1 (((650:ℤ), ((100:ℚ), (100:ℚ)))).1)
            (removeNone ((500 : ℤ), (some (120:ℚ), some (120:ℚ))).2.1)
            (((650:ℤ), ((100:ℚ), (100:ℚ)))).2.1)] ++
         (c1WitnessInput.trafRecv.differences 0).drop ((mergeBoundary c1WitnessInput).1 + 1),
       (mergeDrain c1WitnessInput).1.map (fun x => some x.2.2) ++
         [some (interpolateQ (blendOf (mergeBoundary c1WitnessInput).2
              ((500 : ℤ), (some (120:ℚ), some (120:ℚ))).1 (((650:ℤ), ((100:ℚ), (100:ℚ)))).1)
            (removeNone ((500 : ℤ), (some (120:ℚ), some (120:ℚ))).2.2)
            (((650:ℤ), ((100:ℚ), (100:ℚ)))).2.2)] ++
         (c1WitnessInput.trafSent.differences 0).drop ((mergeBoundary c1WitnessInput).1 + 1)) :=
  ⟨by decide, by decide, by decide,
   c1_boundary_interpolation_amended c1WitnessInput (650, 100, 100)
     (500, some 120, some 120) (by decide) (by decide) (by decide)⟩

/-! ## Claim C2 -/

/-- C2: a transport error leaves the scheduler unlocked (`busy = false`)
and never advances the chain — the error handler issues no remote call
and leaves the step index and kept replies untouched, so no step after
the erroring one runs in that cycle. -/
theorem c2_transport_error_truncates (s : AppState) :
    (applyEvent Event.error s).busy = false ∧
    (applyEvent Event.error s).issuedCalls = s.issuedCalls ∧
    (applyEvent Event.error s).chainIndex = s.chainIndex ∧
    (applyEvent Event.error s).replies = s.replies := by
  simp [applyEvent, netError, plotNetTotalsEffect]

/-! ## Claim C3 -/

/-- C3: a handler fault is caught by the wrapper and never blocks the
chain: whatever the handler body did and whether or not it raised, the
wrapper behaves identically, issuing the next step's call when one
remains and otherwise unlocking and publishing the RTT stats. -/
theorem c3_handler_fault_isolated (body : AppState → AppState) (s : AppState) :
    handlerWrapper body true s = handlerWrapper body false s ∧
    ((body s).chainIndex < commandChain.length →
      (handlerWrapper body true s).issuedCalls
          = (body s).issuedCalls ++ [(body s).chainIndex] ∧
        (handlerWrapper body true s).chainIndex = (body s).chainIndex + 1 ∧
        (handlerWrapper body true s).busy = (body s).busy) ∧
    (commandChain.length ≤ (body s).chainIndex →
      (handlerWrapper body true s).busy = false ∧
        (handlerWrapper body true s).statusNetwork = NetStatus.rttStats) := by
  refine ⟨rfl, fun h => ?_, fun h => ?_⟩
  · simp [handlerWrapper, nextChainedRequest, Nat.not_le.mpr h]
  · simp [handlerWrapper, nextChainedRequest, h]

/-- C3 witness: a raising handler at step index 2 of the 4-step chain
still issues the next call, and at the end of the chain unlocks. -/
theorem c3_handler_fault_isolated_witness :
    ((runHandler Reply.mininginfo { initState with chainIndex := 2, busy := true }).chainIndex
        < commandChain.length) ∧
    (handlerWrapper (runHandler Reply.mininginfo) true
          { initState with chainIndex := 2, busy := true }).issuedCalls
      = (runHandler Reply.mininginfo
          { initState with chainIndex := 2, busy := true }).issuedCalls ++
        [(runHandler Reply.mininginfo
          { initState with chainIndex := 2, busy := true }).chainIndex] ∧
    (commandChain.length ≤
        (runHandler Reply.mininginfo { initState with chainIndex := 4 }).chainIndex) ∧
    (handlerWrapper (runHandler Reply.mininginfo) true
          { initState with chainIndex := 4 }).busy = false :=
  ⟨by decide,
   ((c3_handler_fault_isolated (runHandler Reply.mininginfo)
      { initState with chainIndex := 2, busy := true }).2.1 (by decide)).1,
   by decide,
   ((c3_handler_fault_isolated (runHandler Reply.mininginfo)
      { initState with chainIndex := 4 }).2.2 (by decide)).1⟩

/-! ## Claim C4 -/

/-- C4: a tick that fires while busy starts no chain and increments the
missed-sample counter by exactly one, leaving the step index, kept
replies and issued calls untouched; a tick that fires while idle starts
exactly one chain by issuing step 0 and locking. -/
theorem c4_tick_overlap (s : AppState) :
    (s.busy = true →
      (applyEvent Event.tick s).missedSamples = s.missedSamples + 1 ∧
        (applyEvent Event.tick s).chainIndex = s.chainIndex ∧
        (applyEvent Event.tick s).replies = s.replies ∧
        (applyEvent Event.tick s).issuedCalls = s.issuedCalls ∧
        (applyEvent Event.tick s).busy = true) ∧
    (s.busy = false →
      (applyEvent Event.tick s).issuedCalls = s.issuedCalls ++ [0] ∧
        (applyEvent Event.tick s).chainIndex = 1 ∧
        (applyEvent Event.tick s).busy = true ∧
        (applyEvent Event.tick s).missedSamples = s.missedSamples) := by
  constructor <;> intro h <;>
    simp [applyEvent, update, h, startChain, nextChainedRequest,
      updateStatusMissedSamples, commandChain]

/-- C4 witness: an overlapping tick on a busy state and a clean tick on
the initial state. -/
theorem c4_tick_overlap_witness :
    (({ initState with busy := true } : AppState).busy = true →
      (applyEvent Event.tick { initState with busy := true }).missedSamples
        = ({ initState with busy := true } : AppState).missedSamples + 1) ∧
    (initState.busy = false →
      (applyEvent Event.tick initState).issuedCalls = initState.issuedCalls ++ [0]) :=
  ⟨fun h => ((c4_tick_overlap { initState with busy := true }).1 h).1,
   fun h => ((c4_tick_overlap initState).2 h).1⟩

/-! ## Claim C5 -/

/-- C5: the first observed block count only records the baseline; a
strict increase appends the observation time to the block-arrival window
and updates the last-seen count; an equal or decreased count changes
nothing; and feeding counts 100,100,101,101,99,102 at times 0..5 records
arrivals exactly at times 2 and 5. -/
theorem c5_block_arrival :
    (∀ (c blocks : ℤ) (now : ℚ) (s : AppState), s.lastBlockCount = none →
      updateInfo c blocks now s = { s with lastBlockCount := some blocks }) ∧
    (∀ (c blocks lastSeen : ℤ) (now : ℚ) (s : AppState),
      s.lastBlockCount = some lastSeen → lastSeen < blocks →
      updateInfo c blocks now s =
        { s with lastBlockCount := some blocks
                 blockRecvTimes := s.blockRecvTimes.update now }) ∧
    (∀ (c blocks lastSeen : ℤ) (now : ℚ) (s : AppState),
      s.lastBlockCount = some lastSeen → blocks ≤ lastSeen →
      updateInfo c blocks now s = s) ∧
    c5Final.blockRecvTimes.data.filterMap id = [2, 5] ∧
    c5Final.lastBlockCount = some 102 := by
  refine ⟨?_, ?_, ?_, by decide, by decide⟩
  · intro c blocks now s h
    simp [updateInfo, h]
  · intro c blocks lastSeen now s h hlt
    simp [updateInfo, h, hlt]
  · intro c blocks lastSeen now s h hle
    simp [updateInfo, h, Int.not_lt.mpr hle]

/-- C5 witness: a strict increase from 100 to 101 appends the
observation time. -/
theorem c5_block_arrival_witness :
    (({ initState with lastBlockCount := some 100 } : AppState).lastBlockCount
        = some 100) ∧
    updateInfo 8 101 (2 : ℚ) { initState with lastBlockCount := some 100 } =
      { ({ initState with lastBlockCount := some 100 } : AppState) with
          lastBlockCount := some 101
          blockRecvTimes :=
            ({ initState with lastBlockCount := some 100 } : AppState).blockRecvTimes.update 2 } :=
  ⟨rfl, c5_block_arrival.2.1 8 101 100 2 _ rfl (by decide)⟩

/-! ## Claim C6 -/

set_option maxRecDepth 100000 in
/-- C6 counterexample: on a cold start (every scanned slot absent) with
one archive bucket at age 100 value 7, the emitted series is not just
the drained bucket: a trailing full-resolution point at age 0 (with
absent value) is appended, because the scan leaves the start index at
the final domain position. -/
theorem c6_cold_start_claim_false :
    (mergeDrain c6Input).1.map (fun x => x.1) = [100] ∧
    (plotNetTotals c6Input).1 = [100, 0] ∧
    (plotNetTotals c6Input).2.1 = [some 7, none] := by
  have h : plotNetTotals c6Input =
      ((drainRRD 1000 0 [((900 : ℤ), some (7:ℚ), some (7:ℚ))]).1.map (fun x => x.1) ++ [0],
       (drainRRD 1000 0 [((900 : ℤ), some (7:ℚ), some (7:ℚ))]).1.map (fun x => some x.2.1) ++ [none],
       (drainRRD 1000 0 [((900 : ℤ), some (7:ℚ), some (7:ℚ))]).1.map (fun x => some x.2.2) ++ [none]) :=
    cold_start_merge [((900 : ℤ), some (7:ℚ), some (7:ℚ))] 1000 (by decide)
  have hd : (drainRRD 1000 0 [((900 : ℤ), some (7:ℚ), some (7:ℚ))]).1 = [(100, 7, 7)] := by
    decide
  refine ⟨by rw [c6_drain]; decide, ?_, ?_⟩
  · rw [h, hd]
    decide
  · rw [h, hd]
    decide

set_option maxRecDepth 100000 in
/-- C6 amended: on a cold start, when every archive bucket lies strictly
in the past (age above the boundary age 0), the output is the drained
archive buckets with no interpolated point, plus exactly one trailing
full-resolution point at age 0 whose value is absent. -/
theorem c6_cold_start_amended (rrd : List Bucket) (now : ℤ)
    (h : ∀ b ∈ rrd, 0 < ageOfTime now b.1) :
    plotNetTotals
        { domain := trafPlotDomain, trafRecv := RRA.new trafSamples,
          trafSent := RRA.new trafSamples, rrd := rrd, now := now } =
      ((drainRRD now 0 rrd).1.map (fun x => x.1) ++ [0],
       (drainRRD now 0 rrd).1.map (fun x => some x.2.1) ++ [none],
       (drainRRD now 0 rrd).1.map (fun x => some x.2.2) ++ [none]) :=
  cold_start_merge rrd now h

/-- C6 amended, witnessed at one archive bucket of age 100 value 7 on a
cold start. -/
theorem c6_cold_start_amended_witness :
    (∀ b ∈ ([((900 : ℤ), some (7:ℚ), some (7:ℚ))] : List Bucket), 0 < ageOfTime 1000 b.1) ∧
    plotNetTotals
        { domain := trafPlotDomain, trafRecv := RRA.new trafSamples,
          trafSent := RRA.new trafSamples,
          rrd := [((900 : ℤ), some (7:ℚ), some (7:ℚ))], now := 1000 } =
      ((drainRRD 1000 0 [((900 : ℤ), some (7:ℚ), some (7:ℚ))]).1.map (fun x => x.1) ++ [0],
       (drainRRD 1000 0 [((900 : ℤ), some (7:ℚ), some (7:ℚ))]).1.map (fun x => some x.2.1) ++ [none],
       (drainRRD 1000 0 [((900 : ℤ), some (7:ℚ), some (7:ℚ))]).1.map (fun x => some x.2.2) ++ [none]) :=
  ⟨by decide, c6_cold_start_amended [((900 : ℤ), some (7:ℚ), some (7:ℚ))] 1000 (by decide)⟩

/-! ## Claim C7 -/

set_option maxRecDepth 100000 in
/-- C7 counterexample: the full-resolution points are appended in
descending-age order, not ascending: right after the single archive
point at age 650 come ages 590, 589, … — the successor of the point at
age 590 has the smaller age 589. -/
theorem c7_ascending_claim_false :
    (plotNetTotals c7Input).1
        = (mergeDrain c7Input).1.map (fun x => x.1) ++ trafPlotDomain.drop 8 ∧
    (mergeDrain c7Input).1.map (fun x => x.1) = [650] ∧
    trafPlotDomain[8]? = some 590 ∧ trafPlotDomain[9]? = some 589 ∧ (589 : ℤ) < 590 :=
  ⟨by decide, by decide, by decide, by decide, by decide⟩

/-- C7 amended: for any merge over the program's plot domain, the
appended remaining full-resolution points are in strictly
descending-age order (each successive full-resolution point has a
smaller age than the one before it). -/
theorem c7_fullres_descending (inp : MergeInput) (h : inp.domain = trafPlotDomain) :
    List.Pairwise (fun a b : ℤ => b < a)
      ((plotNetTotals inp).1.drop ((mergeInterp inp).1.length)) := by
  have hdrop : (plotNetTotals inp).1.drop ((mergeInterp inp).1.length)
      = inp.domain.drop (mergeInterp inp).2 := by
    rw [plotNetTotals]
    dsimp only
    exact List.drop_left' (List.length_map _ _)
  rw [hdrop, h]
  exact trafPlotDomain_pairwise.sublist (List.drop_sublist _ _)

set_option maxRecDepth 100000 in
/-- C7 amended, witnessed on the program's plot domain. -/
theorem c7_fullres_descending_witness :
    c7WitnessInput.domain = trafPlotDomain ∧
    List.Pairwise (fun a b : ℤ => b < a)
      ((plotNetTotals c7WitnessInput).1.drop ((mergeInterp c7WitnessInput).1.length)) :=
  ⟨rfl, c7_fullres_descending c7WitnessInput rfl⟩

/-! ## Claim C8 -/

/-- C8: the merge is a state-free recomputation: one invocation leaves
every core input (ring buffers, archive, block state) unchanged, so a
second invocation with no intervening mutation emits an identical
series. -/
theorem c8_merge_idempotent (now : ℤ) (s : AppState) :
    (plotNetTotalsApp now (plotNetTotalsApp now s).1).2 = (plotNetTotalsApp now s).2 ∧
    ((plotNetTotalsApp now s).1).trafRecv = s.trafRecv ∧
    ((plotNetTotalsApp now s).1).trafSent = s.trafSent ∧
    ((plotNetTotalsApp now s).1).trafRRD = s.trafRRD ∧
    ((plotNetTotalsApp now s).1).lastBlockCount = s.lastBlockCount ∧
    ((plotNetTotalsApp now s).1).blockRecvTimes = s.blockRecvTimes :=
  ⟨rfl, rfl, rfl, rfl, rfl, rfl⟩

/-! ## Claim C9 -/

/-- C9: the transport-error handler invokes the merge exactly once (the
instrumentation log grows by exactly one entry), after unlocking (the
logged busy flag is `false`), and on the untouched ring-buffer and
archive state. -/
theorem c9_error_handler_merges (s : AppState) :
    (applyEvent Event.error s).mergeLog = s.mergeLog ++ [false] ∧
    (applyEvent Event.error s).busy = false ∧
    (applyEvent Event.error s).trafRecv = s.trafRecv ∧
    (applyEvent Event.error s).trafSent = s.trafSent ∧
    (applyEvent Event.error s).trafRRD = s.trafRRD := by
  simp [applyEvent, netError, plotNetTotalsEffect]

/-! ## Claim C10 -/

/-- C10: the missed-sample counter starts at 0, never decreases under
any event, is changed only by a tick that fires while busy (and then by
exactly one), and is monotone over any event trace. -/
theorem c10_missed_samples_monotone :
    initState.missedSamples = 0 ∧
    (∀ (e : Event) (s : AppState),
      s.missedSamples ≤ (applyEvent e s).missedSamples ∧
        ((applyEvent e s).missedSamples = s.missedSamples ∨
          ((applyEvent e s).missedSamples = s.missedSamples + 1 ∧
            e = Event.tick ∧ s.busy = true))) ∧
    (∀ (es : List Event) (s : AppState),
      s.missedSamples ≤ (runEvents s es).missedSamples) := by
  have step : ∀ (e : Event) (s : AppState),
      s.missedSamples ≤ (applyEvent e s).missedSamples ∧
        ((applyEvent e s).missedSamples = s.missedSamples ∨
          ((applyEvent e s).missedSamples = s.missedSamples + 1 ∧
            e = Event.tick ∧ s.busy = true)) := by
    intro e s
    cases e with
    | tick =>
      by_cases h : s.busy
      · simp [applyEvent, update, h, updateStatusMissedSamples]
      · simp [applyEvent, update, h, startChain, nextChainedRequest_missedSamples]
    | finished r raised =>
      simp [applyEvent, handlerWrapper, nextChainedRequest_missedSamples,
        runHandler_missedSamples]
    | error =>
      simp [applyEvent, netError, plotNetTotalsEffect]
  refine ⟨rfl, step, ?_⟩
  intro es
  induction es with
  | nil => intro s; simp [runEvents]
  | cons e rest ih =>
    intro s
    have h1 := (step e s).1
    have h2 := ih (applyEvent e s)
    simpa [runEvents] using le_trans h1 (by simpa [runEvents] using h2)

end Bitnomon
